import Mathlib

/-!
Verification of the InfluxDB metrics sink (`src/lib/metrics/influxdb.go`)
of the benthos repository: a shallow embedding of its data model,
accessors, flush path and lifecycle, followed by theorems settling the
specification claims.
-/

namespace BenthosInflux

/-- Field values of a point (Go: `map[string]interface{}` holding `int64` or
`float64`; float values are produced by the external go-metrics library and
carried here as rationals, no arithmetic is performed on them in this file). -/
inductive FieldValue where
  | i (n : Int)
  | f (q : Rat)
  deriving DecidableEq, Repr

/-- Snapshot statistics of a timer (go-metrics `Timer.Snapshot`). -/
structure TimerSnapshot where
  count : Int
  min : Int
  max : Int
  mean : Rat
  stddev : Rat
  p50 : Rat
  p75 : Rat
  p95 : Rat
  p99 : Rat
  p999 : Rat
  rate1 : Rat
  rate5 : Rat
  rate15 : Rat
  rateMean : Rat
  deriving DecidableEq, Repr

/-- Snapshot statistics of a histogram (go-metrics `Histogram.Snapshot`). -/
structure HistogramSnapshot where
  count : Int
  min : Int
  max : Int
  mean : Rat
  stddev : Rat
  p50 : Rat
  p75 : Rat
  p95 : Rat
  p99 : Rat
  p999 : Rat
  deriving DecidableEq, Repr

/-- A value held in a registry. The Go registries store `interface{}`; the
`other` variant stands for a registered value whose dynamic type is none of
the metric types handled by `getMetricValues`. -/
inductive Metric where
  | counter (count : Int)
  | gauge (value : Int)
  | gaugeFloat (value : Rat)
  | timer (snap : TimerSnapshot)
  | histogram (snap : HistogramSnapshot)
  | other
  deriving DecidableEq, Repr

/-- Embeds `metrics.NewTimer()`: a fresh timer metric with an empty sample. -/
def newTimerMetric : Metric := .timer ⟨0, 0, 0, 0, 0, 0, 0, 0, 0, 0, 0, 0, 0, 0⟩

/-- Embeds `getMetricValues` (src/lib/metrics/influxdb.go:277-323): the field map of
one metric's snapshot; an unhandled dynamic type yields a nil (empty) map. -/
def getMetricValues : Metric → List (String × FieldValue)
  | .counter c => [("count", .i c)]
  | .gauge v => [("value", .i v)]
  | .gaugeFloat v => [("value", .f v)]
  | .timer t =>
      [("count", .i t.count), ("min", .i t.min), ("max", .i t.max),
       ("mean", .f t.mean), ("stddev", .f t.stddev),
       ("p50", .f t.p50), ("p75", .f t.p75), ("p95", .f t.p95),
       ("p99", .f t.p99), ("p999", .f t.p999),
       ("1m.rate", .f t.rate1), ("5m.rate", .f t.rate5),
       ("15m.rate", .f t.rate15), ("mean.rate", .f t.rateMean)]
  | .histogram t =>
      [("count", .i t.count), ("min", .i t.min), ("max", .i t.max),
       ("mean", .f t.mean), ("stddev", .f t.stddev),
       ("p50", .f t.p50), ("p75", .f t.p75), ("p95", .f t.p95),
       ("p99", .f t.p99), ("p999", .f t.p999)]
  | .other => []

/-- Assignment `m[k] = v` on a Go map, modelled on an association list:
replace the existing binding for `k`, or append a new one. -/
def mapSet {β : Type} (m : List (String × β)) (k : String) (v : β) : List (String × β) :=
  match m with
  | [] => [(k, v)]
  | p :: t => if p.1 = k then (k, v) :: t else p :: mapSet t k v

/-- A sequence of Go map assignments, left to right (last write wins). -/
def mapSets {β : Type} (m : List (String × β)) (kvs : List (String × β)) : List (String × β) :=
  kvs.foldl (fun acc kv => mapSet acc kv.1 kv.2) m

/-- A metric registry (go-metrics `metrics.Registry`): a keyed collection of
metric values with get-or-create semantics. -/
abbrev Registry := List (String × Metric)

/-- Embeds `Registry.GetOrRegister` (go-metrics): return the existing value under
`key`, or register and return the factory's result. -/
def Registry.getOrRegister (r : Registry) (key : String) (mk : Unit → Metric) : Registry × Metric :=
  match List.lookup key r with
  | some m => (r, m)
  | none => (r ++ [(key, mk ())], mk ())

/-- The tag-pair fragment `k=v` of an encoded key. -/
def encodeTagPair (kv : String × String) : List Char :=
  kv.1.data ++ '=' :: kv.2.data

/-- Modelled from the spec: `encodeInfluxDBName` is defined in a repository
file that is not under src/ (only its call sites in influxdb.go are).  Per
the spec's codec contract it folds `(name, tagKeys, tagValues)` into one
flat registry key using delimiter characters, influx-line-protocol style:
`name,k1=v1,k2=v2`. -/
def encodeInfluxDBName (name : String) (tagKeys tagValues : List String) : String :=
  ⟨List.intercalate [','] (name.data :: (List.zip tagKeys tagValues).map encodeTagPair)⟩

/-- Decoding of one `k=v` fragment: a fragment that does not split into
exactly a key and a value is ignored. -/
def decodeTagPair (kv : List Char) : Option (String × String) :=
  match kv.splitOn '=' with
  | [k, v] => some (⟨k⟩, ⟨v⟩)
  | _ => none

/-- Modelled from the spec: `decodeInfluxDBName` is defined in a repository
file that is not under src/ (only its call sites in influxdb.go are).  It
splits the flat key back into the base name and the tag pairs, building the
tag map by successive assignment (duplicate keys: last write wins). -/
def decodeInfluxDBName (key : String) : String × List (String × String) :=
  let parts := key.data.splitOn ','
  (⟨parts.headD []⟩, mapSets [] (parts.tail.filterMap decodeTagPair))

/-- The external path-mapping capability (spec section 6): maps a
dot-separated path to a backend name plus tag keys/values, or to an empty
name meaning "drop this metric silently". -/
structure PathMapping where
  mapPathWithTags : String → String × List String × List String
  mapPathNoTags : String → String

/-- Embeds `toCMName` (src/lib/metrics/influxdb.go:178-180). -/
def toCMName (pm : PathMapping) (dotSepName : String) : String × List String × List String :=
  pm.mapPathWithTags dotSepName

/-- The stat handle returned to producers: either the no-op `DudStat`
(repository code not under src/; modelled from the spec: "a no-op metric
that silently discards writes"), or a live handle onto the registry entry
with the given encoded key. -/
inductive Stat where
  | dud
  | live (encodedName : String)
  deriving DecidableEq, Repr

/-- Recording a delta through a stat handle: `DudStat` discards the write
and leaves the registry untouched; a live counter handle adjusts the
registry entry in place. -/
def statIncr (s : Stat) (delta : Int) (r : Registry) : Registry :=
  match s with
  | .dud => r
  | .live key =>
      r.map (fun p =>
        if p.1 = key then
          (p.1, match p.2 with
                | .counter c => .counter (c + delta)
                | m => m)
        else p)

/-- Embeds `GetCounter` (src/lib/metrics/influxdb.go:340-351).  The result `none`
models a panic of the Go type assertion `.(influxDBCounter)` on the
`GetOrRegister` result. -/
def GetCounter (pm : PathMapping) (r : Registry) (path : String) : Option (Registry × Stat) :=
  let m := toCMName pm path
  if m.1.length = 0 then some (r, .dud)
  else
    let encodedName := encodeInfluxDBName m.1 m.2.1 m.2.2
    let rm := r.getOrRegister encodedName (fun _ => .counter 0)
    match rm.2 with
    | .counter _ => some (rm.1, .live encodedName)
    | _ => none

/-- Embeds `GetTimer` (src/lib/metrics/influxdb.go:376-387).  The result `none`
models a panic of the Go type assertion `.(influxDBTimer)`. -/
def GetTimer (pm : PathMapping) (r : Registry) (path : String) : Option (Registry × Stat) :=
  let m := toCMName pm path
  if m.1.length = 0 then some (r, .dud)
  else
    let encodedName := encodeInfluxDBName m.1 m.2.1 m.2.2
    let rm := r.getOrRegister encodedName (fun _ => newTimerMetric)
    match rm.2 with
    | .timer _ => some (rm.1, .live encodedName)
    | _ => none

/-- Embeds `GetGauge` (src/lib/metrics/influxdb.go:412-424).  The result `none`
models a panic of the Go type assertion `.(influxDBGauge)`. -/
def GetGauge (pm : PathMapping) (r : Registry) (path : String) : Option (Registry × Stat) :=
  let m := toCMName pm path
  if m.1.length = 0 then some (r, .dud)
  else
    let encodedName := encodeInfluxDBName m.1 m.2.1 m.2.2
    let rm := r.getOrRegister encodedName (fun _ => .gauge 0)
    match rm.2 with
    | .gauge _ => some (rm.1, .live encodedName)
    | _ => none

/-- The `withLabels` closure produced by `GetCounterVec`
(src/lib/metrics/influxdb.go:354-373), flattened over its captured state:
`n` are the label names given to `GetCounterVec`, `l` the label values given
to `With`.  Note the encode call uses the raw `path` as the measurement
name, where the timer and gauge variants use the mapped `name`. -/
def GetCounterVecWithLabels (pm : PathMapping) (r : Registry) (path : String) (n l : List String) : Option (Registry × Stat) :=
  let m := toCMName pm path
  if m.1.length = 0 then some (r, .dud)
  else
    let encodedName := encodeInfluxDBName path (m.2.1 ++ n) (m.2.2 ++ l)
    let rm := r.getOrRegister encodedName (fun _ => .counter 0)
    match rm.2 with
    | .counter _ => some (rm.1, .live encodedName)
    | _ => none

/-- The `withLabels` closure produced by `GetTimerVec`
(src/lib/metrics/influxdb.go:390-409), flattened over its captured state. -/
def GetTimerVecWithLabels (pm : PathMapping) (r : Registry) (path : String) (n l : List String) : Option (Registry × Stat) :=
  let m := toCMName pm path
  if m.1.length = 0 then some (r, .dud)
  else
    let encodedName := encodeInfluxDBName m.1 (m.2.1 ++ n) (m.2.2 ++ l)
    let rm := r.getOrRegister encodedName (fun _ => newTimerMetric)
    match rm.2 with
    | .timer _ => some (rm.1, .live encodedName)
    | _ => none

/-- The `withLabels` closure produced by `GetGaugeVec`
(src/lib/metrics/influxdb.go:427-446), flattened over its captured state. -/
def GetGaugeVecWithLabels (pm : PathMapping) (r : Registry) (path : String) (n l : List String) : Option (Registry × Stat) :=
  let m := toCMName pm path
  if m.1.length = 0 then some (r, .dud)
  else
    let encodedName := encodeInfluxDBName m.1 (m.2.1 ++ n) (m.2.2 ++ l)
    let rm := r.getOrRegister encodedName (fun _ => .gauge 0)
    match rm.2 with
    | .gauge _ => some (rm.1, .live encodedName)
    | _ => none

/-- One timestamped record of a metric's field values, the unit of wire
publication (external influx client `client.Point`, timestamp omitted: every
point of one flush carries the same `now`). -/
structure Point where
  measurement : String
  tags : List (String × String)
  fields : List (String × FieldValue)
  deriving DecidableEq, Repr

/-- Embeds `client.NewPoint` (external influx client): fails when the field map is
empty, as for a registry value of an unhandled dynamic type. -/
def newPoint (measurement : String) (tags : List (String × String)) (fields : List (String × FieldValue)) : Option Point :=
  if fields.isEmpty then none else some ⟨measurement, tags, fields⟩

/-- Embeds `getAllMetrics` (src/lib/metrics/influxdb.go:325-337): one Go map built
from the application registry and the runtime registry, the latter's keys
first path-mapped without tags. -/
def dataSetStep (d : List (String × List (String × FieldValue))) (p : String × Metric) : List (String × List (String × FieldValue)) :=
  mapSet d p.1 (getMetricValues p.2)

def getAllMetrics (pm : PathMapping) (registry runtimeRegistry : Registry) : List (String × List (String × FieldValue)) :=
  let data := registry.foldl dataSetStep []
  runtimeRegistry.foldl (fun d p => mapSet d (pm.mapPathNoTags p.1) (getMetricValues p.2)) data

/-- One iteration of `publishRegistry`'s point loop
(src/lib/metrics/influxdb.go:255-272): decode the key, copy its tags,
override them with the configured global tags, and skip (log only) an
entry whose point formatting fails. -/
def addPointStep (globalTags : List (String × String)) (pts : List Point) (kv : String × List (String × FieldValue)) : List Point :=
  let nd := decodeInfluxDBName kv.1
  let tags := mapSets (mapSets [] nd.2) globalTags
  match newPoint nd.1 tags kv.2 with
  | none => pts
  | some p => pts ++ [p]

/-- Point construction of `publishRegistry`
(src/lib/metrics/influxdb.go:248-275). -/
def publishRegistryPoints (pm : PathMapping) (globalTags : List (String × String)) (registry runtimeRegistry : Registry) : List Point :=
  (getAllMetrics pm registry runtimeRegistry).foldl (addPointStep globalTags) []

/-- A parsed endpoint URL (`net/url`): the scheme, the host, and the full
rendered form `u.String()`. -/
structure URL where
  scheme : String
  host : String
  full : String
  deriving DecidableEq, Repr

/-- A TLS configuration value; `custom` is false for the empty
`&tls.Config{}` used when the config's TLS section is disabled. -/
structure TLSConf where
  custom : Bool
  deriving DecidableEq, Repr

/-- The transport client selected by `makeClient`: an HTTP client (with an
optional TLS configuration — present exactly for the `https` branch) or a
connectionless UDP client. -/
inductive Client where
  | http (addr : String) (tlsConf : Option TLSConf) (username password : String)
  | udp (host : String)
  deriving DecidableEq, Repr

/-- The fields of `InfluxDBConfig` that the embedded code paths consult. -/
structure SinkConfig where
  url : String
  username : String
  password : String
  tlsEnabled : Bool
  interval : String
  pingInterval : String
  timeout : String
  tags : List (String × String)

/-- Outcomes of the external collaborators that `makeClient` calls:
`net/url.Parse`, the TLS section's `Get`, and the influx client
constructors (`none` meaning the constructor succeeds). -/
structure ClientEnv where
  parseURL : String → Except String URL
  tlsGet : Except String TLSConf
  newHTTPErr : Option String
  newUDPErr : Option String

/-- The client-selection chain of `makeClient`
(src/lib/metrics/influxdb.go:182-221): URL parse, scheme dispatch to the
https / http / udp constructors, error for any other scheme. -/
def makeClientResult (env : ClientEnv) (cfg : SinkConfig) : Except String Client :=
  match env.parseURL cfg.url with
  | .error e => .error ("problem parsing url: " ++ e)
  | .ok u =>
    if u.scheme = "https" then
      match (if cfg.tlsEnabled then env.tlsGet else .ok ⟨false⟩) with
      | .error e => .error e
      | .ok t =>
        match env.newHTTPErr with
        | some e => .error e
        | none => .ok (.http u.full (some t) cfg.username cfg.password)
    else if u.scheme = "http" then
      match env.newHTTPErr with
      | some e => .error e
      | none => .ok (.http u.full none cfg.username cfg.password)
    else if u.scheme = "udp" then
      match env.newUDPErr with
      | some e => .error e
      | none => .ok (.udp u.host)
    else .error ("protocol needs to be http, https or udp and is " ++ u.scheme)

/-- The mutable state of the sink that the embedded code paths touch: the
current client, the cancellation context's flag (`i.ctx` is done exactly
when `i.cancel` has been invoked), and the two registries. -/
structure SinkState where
  client : Option Client
  cancelled : Bool
  registry : Registry
  runtimeRegistry : Registry

/-- The assignment tail of `makeClient`
(src/lib/metrics/influxdb.go:217-220): `if err == nil { i.client = c }` —
the client field is updated only when construction succeeded. -/
def makeClient (env : ClientEnv) (cfg : SinkConfig) (s : SinkState) : SinkState × Option String :=
  match makeClientResult env cfg with
  | .ok c => ({ s with client := some c }, none)
  | .error e => (s, some e)

/-- Construction chain of `NewInfluxDB`
(src/lib/metrics/influxdb.go:113-176) from the three duration parses
(external `time.ParseDuration`, supplied as an environment function) through
`makeClient`; any failure aborts construction. -/
def newInfluxDB (env : ClientEnv) (parseDuration : String → Except String Nat) (cfg : SinkConfig) : Except String SinkState :=
  match parseDuration cfg.interval with
  | .error e => .error ("failed to parse interval: " ++ e)
  | .ok _ =>
    match parseDuration cfg.pingInterval with
    | .error e => .error ("failed to parse ping interval: " ++ e)
    | .ok _ =>
      match parseDuration cfg.timeout with
      | .error e => .error ("failed to parse timeout interval: " ++ e)
      | .ok _ =>
        match makeClientResult env cfg with
        | .error e => .error e
        | .ok c => .ok { client := some c, cancelled := false, registry := [], runtimeRegistry := [] }

/-- A timer event delivered to the select loop, carrying the outcome of the
external network call it triggers. -/
inductive LoopEvent where
  | tick (writeErr : Option String)
  | ping (pingErr : Option String)

/-- An observable action of the sink: a batch write through a client, a
ping through a client, closing a client, or a log line. -/
inductive Action where
  | write (c : Option Client) (points : List Point)
  | ping (c : Option Client)
  | closeClient (c : Option Client)
  | logged (msg : String)
  deriving DecidableEq, Repr

/-- Whether an action is a batch write. -/
def Action.isWrite : Action → Bool
  | .write _ _ => true
  | _ => false

/-- Whether an action closes a client. -/
def Action.isCloseClient : Action → Bool
  | .closeClient _ => true
  | _ => false

/-- Whether an action is a log line. -/
def Action.isLogged : Action → Bool
  | .logged _ => true
  | _ => false

/-- One reaction of the select loop (src/lib/metrics/influxdb.go:228-245):
a flush tick publishes the registries through the current client, logging
any error; a ping tick pings, and on failure logs and attempts a client
rebuild, logging a rebuild failure. -/
def loopStep (env : ClientEnv) (pm : PathMapping) (cfg : SinkConfig) (s : SinkState) : LoopEvent → SinkState × List Action
  | .tick writeErr =>
      let pts := publishRegistryPoints pm cfg.tags s.registry s.runtimeRegistry
      (s, [Action.write s.client pts] ++
          (match writeErr with
           | some e => [Action.logged ("failed to send metrics data: " ++ e)]
           | none => []))
  | .ping pingErr =>
      match pingErr with
      | none => (s, [Action.ping s.client])
      | some e =>
          let sm := makeClient env cfg s
          (sm.1, [Action.ping s.client,
                  Action.logged ("unable to ping influx endpoint: " ++ e)] ++
                 (match sm.2 with
                  | some e2 => [Action.logged ("unable to recreate client: " ++ e2)]
                  | none => []))

/-- The select loop (src/lib/metrics/influxdb.go:223-246) driven by a
finite trace of timer events; the `ctx.Done` branch fires exactly when the
cancellation flag is set.  Returns the final state, the performed actions,
and whether the goroutine exited its loop. -/
def loopRun (env : ClientEnv) (pm : PathMapping) (cfg : SinkConfig) (s : SinkState) : List LoopEvent → SinkState × List Action × Bool
  | [] => (s, [], s.cancelled)
  | e :: es =>
      if s.cancelled then (s, [], true)
      else
        let sa := loopStep env pm cfg s e
        let rest := loopRun env pm cfg sa.1 es
        (rest.1, sa.2 ++ rest.2.1, rest.2.2)

/-- Embeds `Close` (src/lib/metrics/influxdb.go:454-460): one final
`publishRegistry` whose failure is only logged (`writeErr` is the external
outcome of its write), then `client.Close`; always returns nil.  Note that
it never invokes the stored `cancel` function. -/
def closeSink (pm : PathMapping) (cfg : SinkConfig) (writeErr : Option String) (s : SinkState) : SinkState × List Action × Option String :=
  let pts := publishRegistryPoints pm cfg.tags s.registry s.runtimeRegistry
  (s, [Action.write s.client pts] ++
      (match writeErr with
       | some e => [Action.logged ("failed to send metrics data: " ++ e)]
       | none => []) ++
      [Action.closeClient s.client], none)

/-! Concrete fixtures used to evaluate the embedding. -/

/-- A path mapping that maps every path to itself with no tags. -/
def pmId : PathMapping := ⟨fun p => (p, [], []), fun p => p⟩

/-- A path mapping that maps the path `raw.path` to the backend name
`mapped` with the tag pair `k=x`, and every other path to itself. -/
def pmMapped : PathMapping :=
  ⟨fun p => if p = "raw.path" then ("mapped", ["k"], ["x"]) else (p, [], []), fun p => p⟩

/-- A path mapping that drops every path (empty backend name). -/
def pmDrop : PathMapping := ⟨fun _ => ("", [], []), fun _ => ""⟩

/-- An environment whose URL parses to a plain http endpoint and whose
client constructors succeed. -/
def envHTTP : ClientEnv := ⟨fun _ => .ok ⟨"http", "h:1", "http://h:1"⟩, .ok ⟨false⟩, none, none⟩

/-- An environment whose URL parses to a udp endpoint. -/
def envUDP : ClientEnv := ⟨fun _ => .ok ⟨"udp", "h:1", "udp://h:1"⟩, .ok ⟨false⟩, none, none⟩

/-- An environment whose URL parses to an unrecognized scheme. -/
def envFTP : ClientEnv := ⟨fun _ => .ok ⟨"ftp", "h:1", "ftp://h:1"⟩, .ok ⟨false⟩, none, none⟩

/-- A sample sink configuration with no global tags. -/
def cfgEx : SinkConfig := ⟨"http://h:1", "", "", false, "1m", "20s", "5s", []⟩

/-- A running sink state: client built, context not cancelled, registries
empty. -/
def sEx : SinkState := ⟨some (.http "http://h:1" none "" ""), false, [], []⟩

/-- C1: the claim fails on the code.  `GetCounterVec`'s `withLabels`
(src/lib/metrics/influxdb.go:365) encodes its registry key from the raw
dot-separated `path`, not from the mapped backend name, unlike
`GetTimerVec` and `GetGaugeVec`: under a mapping sending `raw.path` to
`mapped` with tag `k=x`, the counter vec registers under key
`raw.path,k=x,l=v` while the timer and gauge vecs register under
`mapped,k=x,l=v`, and the former differs from the key built from the
mapped name. -/
theorem C1_counterVec_key_uses_raw_path :
    GetCounterVecWithLabels pmMapped [] "raw.path" ["l"] ["v"]
      = some ([("raw.path,k=x,l=v", Metric.counter 0)], Stat.live "raw.path,k=x,l=v") ∧
    GetTimerVecWithLabels pmMapped [] "raw.path" ["l"] ["v"]
      = some ([("mapped,k=x,l=v", newTimerMetric)], Stat.live "mapped,k=x,l=v") ∧
    GetGaugeVecWithLabels pmMapped [] "raw.path" ["l"] ["v"]
      = some ([("mapped,k=x,l=v", Metric.gauge 0)], Stat.live "mapped,k=x,l=v") ∧
    encodeInfluxDBName "mapped" ["k", "l"] ["x", "v"] = "mapped,k=x,l=v" ∧
    ("raw.path,k=x,l=v" == encodeInfluxDBName "mapped" ["k", "l"] ["x", "v"]) = false := by
  exact ⟨rfl, rfl, rfl, rfl, by decide⟩

/-- C2: the claim fails on the code.  `Close`
(src/lib/metrics/influxdb.go:454-460) never invokes the stored `cancel`
function, so the cancellation context is never done and the background
select loop never takes its exit branch: after `Close` on a running sink
the cancellation flag is still false and the loop processes an arbitrary
further event trace without exiting. -/
theorem C2_close_never_cancels_loop :
    (closeSink pmId cfgEx none sEx).1.cancelled = false ∧
    (loopRun envHTTP pmId cfgEx (closeSink pmId cfgEx none sEx).1
        [.tick none, .ping (some "down"), .tick (some "x")]).2.2 = false := by
  exact ⟨rfl, rfl⟩

/-- C3: `Close` performs exactly one flush attempt (one batch write), logs
a flush failure without returning it, closes the transport client last,
and returns nil in every case. -/
theorem C3_close_one_flush_returns_nil (pm : PathMapping) (cfg : SinkConfig)
    (writeErr : Option String) (s : SinkState) :
    (closeSink pm cfg writeErr s).2.2 = none ∧
    ((closeSink pm cfg writeErr s).2.1.filter Action.isWrite).length = 1 ∧
    ((closeSink pm cfg writeErr s).2.1.filter Action.isCloseClient).length = 1 ∧
    ((closeSink pm cfg writeErr s).2.1).getLast? = some (.closeClient s.client) ∧
    ((closeSink pm cfg writeErr s).2.1.filter Action.isLogged).length
      = (if writeErr.isSome then 1 else 0) := by
  cases writeErr <;>
    simp [closeSink, Action.isWrite, Action.isCloseClient, Action.isLogged]

/-- C4: when the path mapping returns an empty name, every accessor (plain
and vector, for every label combination) returns the no-op stat and leaves
the registry unchanged — hence no registry entry is created and a later
flush carries no point for that path — and recording through the no-op stat
leaves the registry unchanged as well. -/
theorem C4_blocked_path_accessors_are_noops
    (pm : PathMapping) (r : Registry) (path : String)
    (n l : List String) (delta : Int)
    (h : (toCMName pm path).1.length = 0) :
    GetCounter pm r path = some (r, .dud) ∧
    GetTimer pm r path = some (r, .dud) ∧
    GetGauge pm r path = some (r, .dud) ∧
    GetCounterVecWithLabels pm r path n l = some (r, .dud) ∧
    GetTimerVecWithLabels pm r path n l = some (r, .dud) ∧
    GetGaugeVecWithLabels pm r path n l = some (r, .dud) ∧
    statIncr .dud delta r = r := by
  refine ⟨?_, ?_, ?_, ?_, ?_, ?_, rfl⟩ <;>
    simp [GetCounter, GetTimer, GetGauge, GetCounterVecWithLabels,
      GetTimerVecWithLabels, GetGaugeVecWithLabels, h]

/-- Witness for C4 at a concrete blocked path. -/
theorem C4_blocked_path_accessors_are_noops_witness :
    (toCMName pmDrop "input.count").1.length = 0 ∧
    GetCounter pmDrop [] "input.count" = some ([], .dud) ∧
    statIncr .dud 3 [] = [] := by
  have h : (toCMName pmDrop "input.count").1.length = 0 := rfl
  have hall := C4_blocked_path_accessors_are_noops pmDrop [] "input.count" [] [] 3 h
  exact ⟨h, hall.1, hall.2.2.2.2.2.2⟩

/-- The encoded registry key an unblocked plain accessor uses for a path. -/
def encKey (pm : PathMapping) (path : String) : String :=
  encodeInfluxDBName (toCMName pm path).1 (toCMName pm path).2.1 (toCMName pm path).2.2

/-- C8 counterexample: the claim fails on the code.  Registering a timer
under a path and then requesting a counter for the same path makes
`GetOrRegister` return the existing timer, on which the Go type assertion
`.(influxDBCounter)` panics (modelled as `none`) instead of yielding a
usable metric. -/
theorem C8_counterexample_cross_type_assertion_panics :
    GetTimer pmId [] "foo" = some ([("foo", newTimerMetric)], Stat.live "foo") ∧
    GetCounter pmId [("foo", newTimerMetric)] "foo" = none := ⟨rfl, rfl⟩

/-- C8 (amended): each accessor is total on blocked paths, returning the
no-op stat, and on paths whose encoded key is unregistered or already
holds a metric of the accessor's own type; only a key previously
registered by an accessor of a different metric type makes the type
assertion panic. -/
theorem C8_accessors_total_without_type_conflict
    (pm : PathMapping) (r : Registry) (path : String) :
    ((toCMName pm path).1.length = 0 →
      GetCounter pm r path = some (r, .dud) ∧
      GetTimer pm r path = some (r, .dud) ∧
      GetGauge pm r path = some (r, .dud)) ∧
    (List.lookup (encKey pm path) r = none ∨
        (∃ c, List.lookup (encKey pm path) r = some (.counter c)) →
      ∃ p, GetCounter pm r path = some p) ∧
    (List.lookup (encKey pm path) r = none ∨
        (∃ t, List.lookup (encKey pm path) r = some (.timer t)) →
      ∃ p, GetTimer pm r path = some p) ∧
    (List.lookup (encKey pm path) r = none ∨
        (∃ v, List.lookup (encKey pm path) r = some (.gauge v)) →
      ∃ p, GetGauge pm r path = some p) := by
  refine ⟨fun hb => ⟨by simp [GetCounter, hb], by simp [GetTimer, hb], by simp [GetGauge, hb]⟩,
    ?_, ?_, ?_⟩
  · intro hcase
    by_cases hb : (toCMName pm path).1.length = 0
    · exact ⟨(r, .dud), by simp [GetCounter, hb]⟩
    · rcases hcase with hnone | ⟨c, hc⟩
      · exact ⟨(r ++ [(encKey pm path, Metric.counter 0)], .live (encKey pm path)), by
          simp only [GetCounter, Registry.getOrRegister, encKey] at hnone ⊢
          rw [if_neg hb, hnone]⟩
      · exact ⟨(r, .live (encKey pm path)), by
          simp only [GetCounter, Registry.getOrRegister, encKey] at hc ⊢
          rw [if_neg hb, hc]⟩
  · intro hcase
    by_cases hb : (toCMName pm path).1.length = 0
    · exact ⟨(r, .dud), by simp [GetTimer, hb]⟩
    · rcases hcase with hnone | ⟨t, hc⟩
      · exact ⟨(r ++ [(encKey pm path, newTimerMetric)], .live (encKey pm path)), by
          simp only [GetTimer, Registry.getOrRegister, encKey] at hnone ⊢
          rw [if_neg hb, hnone]
          rfl⟩
      · exact ⟨(r, .live (encKey pm path)), by
          simp only [GetTimer, Registry.getOrRegister, encKey] at hc ⊢
          rw [if_neg hb, hc]⟩
  · intro hcase
    by_cases hb : (toCMName pm path).1.length = 0
    · exact ⟨(r, .dud), by simp [GetGauge, hb]⟩
    · rcases hcase with hnone | ⟨v, hc⟩
      · exact ⟨(r ++ [(encKey pm path, Metric.gauge 0)], .live (encKey pm path)), by
          simp only [GetGauge, Registry.getOrRegister, encKey] at hnone ⊢
          rw [if_neg hb, hnone]⟩
      · exact ⟨(r, .live (encKey pm path)), by
          simp only [GetGauge, Registry.getOrRegister, encKey] at hc ⊢
          rw [if_neg hb, hc]⟩

/-- Witness for the amended C8 at a concrete path and empty registry. -/
theorem C8_accessors_total_without_type_conflict_witness :
    List.lookup (encKey pmId "foo") ([] : Registry) = none ∧
    ∃ p, GetCounter pmId [] "foo" = some p :=
  ⟨rfl, (C8_accessors_total_without_type_conflict pmId [] "foo").2.1 (Or.inl rfl)⟩

/-- C6: `makeClient` selects the transport from the parsed URL's scheme —
https yields an HTTP client carrying a TLS configuration, http a plain
HTTP client, udp a datagram client addressed at the URL host — and any
other scheme yields an error, which `NewInfluxDB` propagates as a
construction failure. -/
theorem C6_scheme_selects_transport
    (env : ClientEnv) (cfg : SinkConfig) (u : URL)
    (hu : env.parseURL cfg.url = .ok u)
    (hh : env.newHTTPErr = none) (hd : env.newUDPErr = none)
    (ht : cfg.tlsEnabled = false) :
    (u.scheme = "https" →
      makeClientResult env cfg = .ok (.http u.full (some ⟨false⟩) cfg.username cfg.password)) ∧
    (u.scheme = "http" →
      makeClientResult env cfg = .ok (.http u.full none cfg.username cfg.password)) ∧
    (u.scheme = "udp" → makeClientResult env cfg = .ok (.udp u.host)) ∧
    (u.scheme ≠ "https" → u.scheme ≠ "http" → u.scheme ≠ "udp" →
      makeClientResult env cfg
        = .error ("protocol needs to be http, https or udp and is " ++ u.scheme)) ∧
    (∀ (pd : String → Except String Nat) (emsg : String),
      makeClientResult env cfg = .error emsg →
      (∃ n1, pd cfg.interval = .ok n1) →
      (∃ n2, pd cfg.pingInterval = .ok n2) →
      (∃ n3, pd cfg.timeout = .ok n3) →
      newInfluxDB env pd cfg = .error emsg) := by
  refine ⟨?_, ?_, ?_, ?_, ?_⟩
  · intro hs; simp [makeClientResult, hu, hs, ht, hh]
  · intro hs; simp [makeClientResult, hu, hs, hh]
  · intro hs; simp [makeClientResult, hu, hs, hd]
  · intro h1 h2 h3; simp [makeClientResult, hu, h1, h2, h3]
  · rintro pd emsg hm ⟨n1, h1⟩ ⟨n2, h2⟩ ⟨n3, h3⟩
    simp [newInfluxDB, h1, h2, h3, hm]

/-- Witness for C6 at a concrete udp endpoint. -/
theorem C6_scheme_selects_transport_witness :
    envUDP.parseURL cfgEx.url = .ok ⟨"udp", "h:1", "udp://h:1"⟩ ∧
    envUDP.newHTTPErr = none ∧ envUDP.newUDPErr = none ∧ cfgEx.tlsEnabled = false ∧
    makeClientResult envUDP cfgEx = .ok (.udp "h:1") :=
  ⟨rfl, rfl, rfl, rfl,
    (C6_scheme_selects_transport envUDP cfgEx ⟨"udp", "h:1", "udp://h:1"⟩
      rfl rfl rfl rfl).2.2.1 rfl⟩

/-- A loop reaction never changes the cancellation flag. -/
lemma loopStep_cancelled (env : ClientEnv) (pm : PathMapping) (cfg : SinkConfig)
    (s : SinkState) (e : LoopEvent) :
    ((loopStep env pm cfg s e).1).cancelled = s.cancelled := by
  cases e with
  | tick w => rfl
  | ping p =>
    cases p with
    | none => rfl
    | some e => cases h : makeClientResult env cfg <;> simp [loopStep, makeClient, h]

/-- While the cancellation flag is unset, the loop never takes its exit
branch, whatever events and external failures occur. -/
lemma loopRun_not_exited (env : ClientEnv) (pm : PathMapping) (cfg : SinkConfig) :
    ∀ (evs : List LoopEvent) (s : SinkState), s.cancelled = false →
      (loopRun env pm cfg s evs).2.2 = false := by
  intro evs
  induction evs with
  | nil => intro s h; simpa [loopRun] using h
  | cons e es ih =>
      intro s h
      simp [loopRun, h]
      exact ih _ (by rw [loopStep_cancelled]; exact h)

/-- C7: a metric whose snapshot cannot be formatted into a point is
skipped while the rest of the batch is still built (concrete batch with a
bad middle entry), and write or ping failures in the background loop are
logged and never terminate the loop. -/
theorem C7_transient_errors_skipped_and_nonfatal
    (env : ClientEnv) (pm : PathMapping) (cfg : SinkConfig) (s : SinkState)
    (evs : List LoopEvent) (e : String) (h : s.cancelled = false) :
    (loopRun env pm cfg s evs).2.2 = false ∧
    Action.logged ("failed to send metrics data: " ++ e)
      ∈ (loopStep env pm cfg s (.tick (some e))).2 ∧
    Action.logged ("unable to ping influx endpoint: " ++ e)
      ∈ (loopStep env pm cfg s (.ping (some e))).2 ∧
    publishRegistryPoints pmId []
        [("a", Metric.counter 1), ("b", Metric.other), ("c", Metric.gauge 2)] []
      = [⟨"a", [], [("count", .i 1)]⟩, ⟨"c", [], [("value", .i 2)]⟩] := by
  refine ⟨loopRun_not_exited env pm cfg evs s h, ?_, ?_, by decide⟩
  · simp [loopStep]
  · cases hm : makeClientResult env cfg <;> simp [loopStep, makeClient, hm]

/-- Witness for C7 on a concrete running state and error-laden trace. -/
theorem C7_transient_errors_skipped_and_nonfatal_witness :
    sEx.cancelled = false ∧
    (loopRun envHTTP pmId cfgEx sEx [.tick (some "boom"), .ping (some "down")]).2.2 = false :=
  ⟨rfl, (C7_transient_errors_skipped_and_nonfatal envHTTP pmId cfgEx sEx
      [.tick (some "boom"), .ping (some "down")] "boom" rfl).1⟩

/-- C10: when a client rebuild fails, the sink state — in particular its
client field — is left unchanged, and after a failed ping whose rebuild
also fails, the next flush tick still writes through the old client. -/
theorem C10_failed_rebuild_keeps_old_client
    (env : ClientEnv) (pm : PathMapping) (cfg : SinkConfig) (s : SinkState)
    (e emsg : String) (hc : s.cancelled = false)
    (h : makeClientResult env cfg = .error emsg) :
    (makeClient env cfg s).1 = s ∧
    (makeClient env cfg s).2 = some emsg ∧
    (loopRun env pm cfg s [.ping (some e), .tick none]).2.1 =
      [Action.ping s.client,
       Action.logged ("unable to ping influx endpoint: " ++ e),
       Action.logged ("unable to recreate client: " ++ emsg),
       Action.write s.client (publishRegistryPoints pm cfg.tags s.registry s.runtimeRegistry)] := by
  refine ⟨by simp [makeClient, h], by simp [makeClient, h], ?_⟩
  simp [loopRun, loopStep, makeClient, h, hc]

/-- Witness for C10 at a concrete unrecognized-scheme environment. -/
theorem C10_failed_rebuild_keeps_old_client_witness :
    sEx.cancelled = false ∧
    makeClientResult envFTP cfgEx = .error "protocol needs to be http, https or udp and is ftp" ∧
    (makeClient envFTP cfgEx sEx).1 = sEx :=
  ⟨rfl, rfl, (C10_failed_rebuild_keeps_old_client envFTP pmId cfgEx sEx "down"
      "protocol needs to be http, https or udp and is ftp" rfl rfl).1⟩



/-- Lookup on a cons cell of an association list. -/
lemma lookup_cons_pair {b : Type} (k : String) (p : String × b) (t : List (String × b)) :
    List.lookup k (p :: t) = if k = p.1 then some p.2 else List.lookup k t := by
  cases p with
  | mk a v => by_cases h : k = a <;> simp [List.lookup, h, beq_iff_eq, beq_false_of_ne]

/-- Keys absent from an association list look up to none. -/
lemma lookup_eq_none_of_not_mem_keys {b : Type} (l : List (String × b)) (k : String)
    (h : k ∉ l.map Prod.fst) : List.lookup k l = none := by
  induction l with
  | nil => rfl
  | cons p t ih =>
      simp only [List.map_cons, List.mem_cons] at h
      push_neg at h
      rw [lookup_cons_pair, if_neg h.1, ih h.2]

/-- Lookup after one Go map assignment. -/
lemma lookup_mapSet {b : Type} (m : List (String × b)) (k k2 : String) (v : b) :
    List.lookup k2 (mapSet m k v) = if k2 = k then some v else List.lookup k2 m := by
  induction m with
  | nil => simp [mapSet, lookup_cons_pair]
  | cons p t ih =>
      by_cases hp : p.1 = k
      · by_cases h : k2 = k <;> simp [mapSet, hp, lookup_cons_pair, h]
      · by_cases h1 : k2 = p.1
        · have h2 : ¬k2 = k := fun hk => hp (by rw [← h1, hk])
          simp [mapSet, hp, lookup_cons_pair, h1, h2]
        · by_cases h2 : k2 = k
          · subst h2
            simp [mapSet, hp, Ne.symm hp, lookup_cons_pair, h1, ih]
          · simp [mapSet, hp, lookup_cons_pair, h1, h2, ih]

/-- A fresh key assignment appends. -/
lemma mapSet_eq_append {b : Type} (m : List (String × b)) (k : String) (v : b)
    (h : k ∉ m.map Prod.fst) : mapSet m k v = m ++ [(k, v)] := by
  induction m with
  | nil => rfl
  | cons p t ih =>
      simp only [List.map_cons, List.mem_cons] at h
      push_neg at h
      simp [mapSet, Ne.symm h.1, ih h.2]

/-- Unfolds one assignment of a mapSets fold. -/
lemma mapSets_cons {b : Type} (m : List (String × b)) (p : String × b) (t : List (String × b)) :
    mapSets m (p :: t) = mapSets (mapSet m p.1 p.2) t := rfl

/-- Spec-side characterization of the merged tag lookup: the global
binding wins when present, else the original binding remains. -/
def specGlobalOverrideLookup {b : Type} (g m : List (String × b)) (k : String) : Option b :=
  match List.lookup k g with
  | some v => some v
  | none => List.lookup k m

/-- Folding the global tag assignments over a tag map realizes the
override lookup, provided the global map has pairwise-distinct keys. -/
lemma lookup_mapSets {b : Type} (g : List (String × b)) :
    ∀ (m : List (String × b)) (k : String), (g.map Prod.fst).Nodup →
      List.lookup k (mapSets m g) = specGlobalOverrideLookup g m k := by
  induction g with
  | nil => intro m k _; simp [mapSets, specGlobalOverrideLookup]
  | cons p t ih =>
      intro m k h
      have hpt : p.1 ∉ t.map Prod.fst := (List.nodup_cons.mp h).1
      rw [mapSets_cons, ih _ k (List.nodup_cons.mp h).2]
      unfold specGlobalOverrideLookup
      by_cases hk : k = p.1
      · have hnone : List.lookup k t = none := by
          rw [hk]; exact lookup_eq_none_of_not_mem_keys t p.1 hpt
        rw [hnone]
        simp [lookup_cons_pair, lookup_mapSet, hk]
      · cases hl : List.lookup k t <;>
          simp [lookup_cons_pair, hk, hl, lookup_mapSet]

/-- Folding registry entries with pairwise-distinct keys into an empty Go
map keeps one entry per key, in order. -/
lemma foldl_dataSetStep (reg : Registry) :
    ∀ acc : List (String × List (String × FieldValue)),
      (reg.map Prod.fst).Nodup →
      (∀ p ∈ reg, p.1 ∉ acc.map Prod.fst) →
      reg.foldl dataSetStep acc = acc ++ reg.map (fun p => (p.1, getMetricValues p.2)) := by
  induction reg with
  | nil => intro acc _ _; simp
  | cons p t ih =>
      intro acc hnd hdisj
      have h1 : p.1 ∉ acc.map Prod.fst := hdisj p (List.mem_cons_self p t)
      have hstep : dataSetStep acc p = acc ++ [(p.1, getMetricValues p.2)] :=
        mapSet_eq_append _ _ _ h1
      have hpt : p.1 ∉ t.map Prod.fst := (List.nodup_cons.mp hnd).1
      rw [List.foldl_cons, hstep, ih _ (List.nodup_cons.mp hnd).2 ?_]
      · simp
      · intro q hq
        simp only [List.map_append, List.mem_append]
        push_neg
        refine ⟨hdisj q (List.mem_cons_of_mem p hq), ?_⟩
        simp only [List.map_cons, List.map_nil, List.mem_singleton]
        intro hqp
        exact hpt (hqp ▸ List.mem_map_of_mem Prod.fst hq)

/-- With no runtime registry, the flush data map is the registry itself. -/
lemma getAllMetrics_no_runtime (pm : PathMapping) (reg : Registry)
    (hnd : (reg.map Prod.fst).Nodup) :
    getAllMetrics pm reg [] = reg.map (fun p => (p.1, getMetricValues p.2)) := by
  simpa [getAllMetrics] using foldl_dataSetStep reg [] hnd (by simp)

/-- Folding the point-construction step over entries with nonempty field
maps appends one point per entry. -/
lemma foldl_addPointStep (g : List (String × String))
    (l : List (String × List (String × FieldValue))) :
    ∀ acc : List Point, (∀ kv ∈ l, kv.2 ≠ []) →
      l.foldl (addPointStep g) acc
        = acc ++ l.map (fun kv =>
            ⟨(decodeInfluxDBName kv.1).1,
             mapSets (mapSets [] (decodeInfluxDBName kv.1).2) g, kv.2⟩) := by
  induction l with
  | nil => intro acc _; simp
  | cons kv t ih =>
      intro acc h
      have hne : kv.2 ≠ [] := h kv (List.mem_cons_self kv t)
      have hstep : addPointStep g acc kv
          = acc ++ [⟨(decodeInfluxDBName kv.1).1,
              mapSets (mapSets [] (decodeInfluxDBName kv.1).2) g, kv.2⟩] := by
        cases hkv : kv.2 with
        | nil => exact absurd hkv hne
        | cons a b => simp [addPointStep, newPoint, hkv]
      rw [List.foldl_cons, hstep, ih _ (fun q hq => h q (List.mem_cons_of_mem kv hq))]
      simp

/-- C5: on a flush of a registry with pairwise-distinct keys (and no
runtime registry), every registry entry yields exactly one point, in
order, whose measurement and tags come from decoding the entry's key and
whose tag map is the decoded tags overridden by the configured global
tags; and looking up any key in the merged tag map finds the global
binding when one exists, else the decoded binding. -/
theorem C5_flush_applies_global_tag_override
    (pm : PathMapping) (g : List (String × String)) (reg : Registry)
    (hreg : (reg.map Prod.fst).Nodup)
    (hne : ∀ p ∈ reg, getMetricValues p.2 ≠ [])
    (hg : (g.map Prod.fst).Nodup) :
    publishRegistryPoints pm g reg [] =
      reg.map (fun p =>
        ⟨(decodeInfluxDBName p.1).1,
         mapSets (mapSets [] (decodeInfluxDBName p.1).2) g,
         getMetricValues p.2⟩) ∧
    ∀ (m : List (String × String)) (k : String),
      List.lookup k (mapSets m g) = specGlobalOverrideLookup g m k := by
  constructor
  · rw [publishRegistryPoints, getAllMetrics_no_runtime pm reg hreg,
      foldl_addPointStep g _ [] ?_]
    · simp [List.map_map]
    · intro kv hkv
      obtain ⟨p, hp, rfl⟩ := List.mem_map.mp hkv
      exact hne p hp
  · intro m k; exact lookup_mapSets g m k hg

/-- Witness for C5: the spec's own example — one counter of value 5 whose
key carries `zone=b`, global tag `zone=a` — flushes exactly one point with
field `count=5` and tag `zone=a`. -/
theorem C5_flush_applies_global_tag_override_witness :
    (([(encodeInfluxDBName "cpu" ["zone"] ["b"], Metric.counter 5)] : Registry).map
        Prod.fst).Nodup ∧
    (∀ p ∈ ([(encodeInfluxDBName "cpu" ["zone"] ["b"], Metric.counter 5)] : Registry),
      getMetricValues p.2 ≠ []) ∧
    (([("zone", "a")] : List (String × String)).map Prod.fst).Nodup ∧
    publishRegistryPoints pmId [("zone", "a")]
        [(encodeInfluxDBName "cpu" ["zone"] ["b"], Metric.counter 5)] []
      = [⟨"cpu", [("zone", "a")], [("count", .i 5)]⟩] := by
  have h1 : (([(encodeInfluxDBName "cpu" ["zone"] ["b"], Metric.counter 5)] : Registry).map
      Prod.fst).Nodup := by decide
  have h2 : ∀ p ∈ ([(encodeInfluxDBName "cpu" ["zone"] ["b"], Metric.counter 5)] : Registry),
      getMetricValues p.2 ≠ [] := by decide
  have h3 : (([("zone", "a")] : List (String × String)).map Prod.fst).Nodup := by decide
  refine ⟨h1, h2, h3, ?_⟩
  have h := (C5_flush_applies_global_tag_override pmId [("zone", "a")]
      [(encodeInfluxDBName "cpu" ["zone"] ["b"], Metric.counter 5)] h1 h2 h3).1
  rw [h]
  decide

/-- Splitting an encoded tag pair on the pair delimiter recovers the key
and value. -/
lemma splitOn_encodeTagPair (k v : String)
    (hk : '=' ∉ k.data) (hv : '=' ∉ v.data) :
    (encodeTagPair (k, v)).splitOn '=' = [k.data, v.data] := by
  have h : List.intercalate ['='] [k.data, v.data] = encodeTagPair (k, v) := by
    simp [List.intercalate, encodeTagPair]
  rw [← h]
  refine List.splitOn_intercalate _ '=' ?_ (by simp)
  intro l hl
  rcases List.mem_cons.mp hl with h1 | h1
  · rw [h1]; exact hk
  · rw [List.mem_singleton.mp h1]; exact hv

/-- Decoding an encoded tag pair recovers it. -/
lemma decodeTagPair_encodeTagPair (k v : String)
    (hk : '=' ∉ k.data) (hv : '=' ∉ v.data) :
    decodeTagPair (encodeTagPair (k, v)) = some (k, v) := by
  unfold decodeTagPair
  rw [splitOn_encodeTagPair k v hk hv]

/-- Decoding a list of encoded tag pairs recovers the pair list. -/
lemma filterMap_decode_encode (l : List (String × String))
    (h : ∀ kv ∈ l, ('=' ∉ kv.1.data ∧ '=' ∉ kv.2.data)) :
    (l.map encodeTagPair).filterMap decodeTagPair = l := by
  induction l with
  | nil => rfl
  | cons kv t ih =>
      obtain ⟨a, b⟩ := kv
      obtain ⟨hk, hv⟩ := h (a, b) (List.mem_cons_self _ t)
      simp [List.filterMap_cons, decodeTagPair_encodeTagPair a b hk hv,
        ih (fun q hq => h q (List.mem_cons_of_mem _ hq))]

/-- Splitting an encoded key on the tag delimiter recovers the name and
the encoded pairs. -/
lemma splitOn_encodeInfluxDBName (name : String) (ks vs : List String)
    (hn : ',' ∉ name.data)
    (hks : ∀ s ∈ ks, ',' ∉ s.data) (hvs : ∀ s ∈ vs, ',' ∉ s.data) :
    (encodeInfluxDBName name ks vs).data.splitOn ','
      = name.data :: (List.zip ks vs).map encodeTagPair := by
  show (List.intercalate [','] (name.data :: (List.zip ks vs).map encodeTagPair)).splitOn ','
      = name.data :: (List.zip ks vs).map encodeTagPair
  refine List.splitOn_intercalate _ ',' ?_ (by simp)
  intro l hl
  rcases List.mem_cons.mp hl with h1 | h1
  · rw [h1]; exact hn
  · obtain ⟨kv, hkv, rfl⟩ := List.mem_map.mp h1
    obtain ⟨a, b⟩ := kv
    obtain ⟨ha, hb⟩ := List.of_mem_zip hkv
    intro hmem
    simp only [encodeTagPair, List.mem_append, List.mem_cons] at hmem
    rcases hmem with hc | he | hc
    · exact hks a ha hc
    · exact absurd he (by decide)
    · exact hvs b hb hc

/-- C9: for equal-length tag keys and values whose contents (and the
name) are free of the codec's delimiter characters, decoding the encoded
key returns the original name and the tag map obtained by assigning the
key/value pairs in order (last write wins). -/
theorem C9_codec_round_trip (name : String) (ks vs : List String)
    (hlen : ks.length = vs.length)
    (hn : ',' ∉ name.data ∧ '=' ∉ name.data)
    (hks : ∀ s ∈ ks, ',' ∉ s.data ∧ '=' ∉ s.data)
    (hvs : ∀ s ∈ vs, ',' ∉ s.data ∧ '=' ∉ s.data) :
    decodeInfluxDBName (encodeInfluxDBName name ks vs)
      = (name, mapSets [] (List.zip ks vs)) := by
  have _hlen := hlen
  unfold decodeInfluxDBName
  rw [splitOn_encodeInfluxDBName name ks vs hn.1 (fun s hs => (hks s hs).1)
    (fun s hs => (hvs s hs).1)]
  simp only [List.headD_cons, List.tail_cons]
  rw [filterMap_decode_encode]
  intro kv hkv
  obtain ⟨a, b⟩ := kv
  obtain ⟨ha, hb⟩ := List.of_mem_zip hkv
  exact ⟨(hks a ha).2, (hvs b hb).2⟩

/-- Witness for C9 at a concrete delimiter-free name and tag pair. -/
theorem C9_codec_round_trip_witness :
    (["zone"] : List String).length = (["b"] : List String).length ∧
    (',' ∉ "cpu".data ∧ '=' ∉ "cpu".data) ∧
    decodeInfluxDBName (encodeInfluxDBName "cpu" ["zone"] ["b"])
      = ("cpu", mapSets [] (List.zip ["zone"] ["b"])) :=
  ⟨rfl, by decide,
    C9_codec_round_trip "cpu" ["zone"] ["b"] rfl (by decide) (by decide) (by decide)⟩

end BenthosInflux
